import Mathlib

/-!
Verification development for the task/user management core: a shallow
embedding of `task_manager.py`, `user_manager.py` and the query pipeline of
`app.py`, with theorems settling the specification's claims about them.

Modelling conventions:
  - the module-level mutable lists (`task_list`, `user_list`) become explicit
    state arguments and results (state passing);
  - Python exceptions become an `Err` sum (`ValueError` ↦ `validationError`,
    `LookupError` ↦ `notFoundError`, matching the spec's taxonomy);
  - `datetime.now()` becomes an explicit `now : String` argument;
  - the persistence adapter (`_save_tasks` / `_save_users`) is a best-effort
    side effect with no influence on the in-memory state, so it is dropped;
  - Python `str.strip()` is `pyStrip` (drop leading/trailing whitespace),
    `str.lower()` is `pyLower` (`Char.toLower` over the characters; like
    Lean's, it only lowers basic latin letters), `len` is the character
    count; both are structural so that the kernel can evaluate them.
-/

deriving instance DecidableEq for Except

namespace TaskMgmt

/-- Error taxonomy: `ValueError` ↦ `validationError` (HTTP 400),
`LookupError` ↦ `notFoundError` (HTTP 404). -/
inductive Err where
  | validationError (msg : String)
  | notFoundError (msg : String)
deriving DecidableEq, Repr

/-- Python `str.strip()`: drop leading and trailing whitespace. Defined
structurally on the character list so proofs can evaluate it. -/
def pyStrip (s : String) : String :=
  ⟨((s.data.dropWhile Char.isWhitespace).reverse.dropWhile
      Char.isWhitespace).reverse⟩

/-- Python `str.lower()` over basic latin letters, structurally. -/
def pyLower (s : String) : String := ⟨s.data.map Char.toLower⟩

/-- A task record, fields as in `task_manager.py` (plus the
`assigned_user_id` field the spec's data model gives to tasks). -/
structure Task where
  id : Int
  title : String
  description : String
  status : String
  created_at : String
  assigned_user_id : Option Int := none
deriving DecidableEq, Repr

/-- `max((t["id"] for t in task_list), default=0)`. -/
def maxId (task_list : List Task) : Int :=
  task_list.foldl (fun m t => max m t.id) 0

/-- `add_task` of `task_manager.py` (lines 89-110): trims both fields,
validates, appends a fresh record with id `max existing + 1`. -/
def add_task (title : String) (description : String) (now : String)
    (task_list : List Task) : Except Err (Task × List Task) :=
  let title := pyStrip title
  let description := pyStrip description
  if title = "" then .error (.validationError "Title is required")
  else if title.length > 100 then
    .error (.validationError "Title cannot exceed 100 characters")
  else if description.length > 500 then
    .error (.validationError "Description cannot exceed 500 characters")
  else
    let new_task : Task :=
      { id := maxId task_list + 1, title := title, description := description,
        status := "TODO", created_at := now }
    .ok (new_task, task_list ++ [new_task])

/-- `get_task_by_id` of `task_manager.py` (lines 112-117), with
`_validate_task_id` (lines 47-55) inlined: ids below 1 are rejected as
`ValueError("Invalid ID format")`, then the first task with the id wins. -/
def get_task_by_id (task_id : Int) (task_list : List Task) : Except Err Task :=
  if task_id < 1 then .error (.validationError "Invalid ID format")
  else
    match task_list.find? (fun t => t.id == task_id) with
    | some t => .ok t
    | none => .error (.notFoundError "Task not found")

/-- In-place mutation of the first list element satisfying `p` (Python
mutates the dict returned by `get_task_by_id`, which aliases into
`task_list`). -/
def updateFirst (p : Task → Bool) (f : Task → Task) : List Task → List Task
  | [] => []
  | t :: ts => if p t then f t :: ts else t :: updateFirst p f ts

/-- `update_task` of `task_manager.py` (lines 119-142). The second
component is the store after the call, which, like the Python list, may
have the title already assigned when the description check raises. -/
def update_task (task_id : Int) (title : Option String)
    (description : Option String) (task_list : List Task) :
    Except Err Task × List Task :=
  match get_task_by_id task_id task_list with
  | .error e => (.error e, task_list)
  | .ok _ =>
    let titleStep : Except Err (List Task) :=
      match title with
      | none => .ok task_list
      | some s =>
        let s := pyStrip s
        if s = "" then .error (.validationError "Title is required")
        else if s.length > 100 then
          .error (.validationError "Title cannot exceed 100 characters")
        else
          .ok (updateFirst (fun t => t.id == task_id)
                (fun t => { t with title := s }) task_list)
    match titleStep with
    | .error e => (.error e, task_list)
    | .ok l1 =>
      match description with
      | none =>
        match get_task_by_id task_id l1 with
        | .ok t => (.ok t, l1)
        | .error e => (.error e, l1)
      | some d =>
        let d := pyStrip d
        if d.length > 500 then
          (.error (.validationError "Description cannot exceed 500 characters"), l1)
        else
          let l2 := updateFirst (fun t => t.id == task_id)
                      (fun t => { t with description := d }) l1
          match get_task_by_id task_id l2 with
          | .ok t => (.ok t, l2)
          | .error e => (.error e, l2)

/-- `delete_task` of `task_manager.py` (lines 156-164): removes the first
task with the id, `LookupError` when none matches. -/
def delete_task (task_id : Int) (task_list : List Task) :
    Except Err Unit × List Task :=
  if task_id < 1 then (.error (.validationError "Invalid ID format"), task_list)
  else if task_list.any (fun t => t.id == task_id) then
    (.ok (), task_list.eraseP (fun t => t.id == task_id))
  else (.error (.notFoundError "Task not found"), task_list)

/-- Lexicographic comparison of char lists by code point, structurally
(Python's string `<=`). -/
def lexLe : List Char → List Char → Bool
  | [], _ => true
  | _ :: _, [] => false
  | a :: as, b :: bs => if a = b then lexLe as bs else decide (a < b)

/-- Python string comparison `a <= b` (lexicographic by code point). -/
def pyStrLe (a b : String) : Bool := lexLe a.data b.data

/-- Insert `x` after every element `b` with `le b x` (so after all
elements it compares equal to): the insertion step of a stable sort. -/
def insStable {α : Type} (le : α → α → Bool) (x : α) : List α → List α
  | [] => [x]
  | b :: bs => if le b x then b :: insStable le x bs else x :: b :: bs

/-- Python's stable `sorted`/`list.sort`, as a structural insertion sort:
elements are taken in original order and each lands after its equals. -/
def pySort {α : Type} (le : α → α → Bool) (l : List α) : List α :=
  l.foldl (fun acc x => insStable le x acc) []

lemma length_insStable {α : Type} (le : α → α → Bool) (x : α) :
    ∀ l : List α, (insStable le x l).length = l.length + 1
  | [] => rfl
  | b :: bs => by
    rw [insStable]
    split
    · simp [length_insStable le x bs]
    · simp

lemma length_pySort_aux {α : Type} (le : α → α → Bool) :
    ∀ (l acc : List α),
      (l.foldl (fun acc x => insStable le x acc) acc).length
        = acc.length + l.length
  | [], acc => rfl
  | x :: xs, acc => by
    rw [List.foldl_cons, length_pySort_aux le xs, length_insStable,
      List.length_cons]
    omega

lemma length_pySort {α : Type} (le : α → α → Bool) (l : List α) :
    (pySort le l).length = l.length := by
  rw [pySort, length_pySort_aux]
  simp

/-- The characters of `pyLower`: Python `str.lower()` as a char list. -/
def lowerChars (s : String) : List Char := s.data.map Char.toLower

/-- Executable check that `needle` starts `hay`. -/
def listPref : List Char → List Char → Bool
  | [], _ => true
  | _ :: _, [] => false
  | a :: as, b :: bs => a == b && listPref as bs

/-- Executable check of Python's substring operator `needle in hay`. -/
def strContains (needle : List Char) : List Char → Bool
  | [] => needle.isEmpty
  | c :: t => listPref needle (c :: t) || strContains needle t

/-- The membership condition of the comprehension in `search_tasks`. -/
def task_matches (keyword_lower : List Char) (t : Task) : Bool :=
  strContains keyword_lower (lowerChars t.title)
    || strContains keyword_lower (lowerChars t.description)

/-- `search_tasks` of `task_manager.py` (lines 166-168). -/
def search_tasks (keyword : String) (task_list : List Task) : List Task :=
  task_list.filter (task_matches (lowerChars keyword))

/-- `get_tasks` of `task_manager.py` (lines 57-87): validated pagination
over the task list, returned with its metadata. -/
structure TasksPage where
  tasks : List Task
  page : Int
  page_size : Int
  total_tasks : Nat
  total_pages : Nat
deriving DecidableEq, Repr

/-- `get_tasks(page=1, page_size=20)` of `task_manager.py` (lines 57-87). -/
def get_tasks (page : Int) (page_size : Int) (task_list : List Task) :
    Except Err TasksPage :=
  if page < 1 then .error (.validationError "Invalid page number")
  else if page_size < 1 then .error (.validationError "Invalid page size")
  else
    let total_tasks := task_list.length
    let ps := page_size.toNat
    let total_pages := (total_tasks + ps - 1) / ps
    let paginated_tasks :=
      if page > (total_pages : Int) ∧ total_tasks ≠ 0 then []
      else (task_list.drop ((page - 1) * page_size).toNat).take ps
    .ok ⟨paginated_tasks, page, page_size, total_tasks, total_pages⟩

/-- A user record, fields as in `user_manager.py`. -/
structure User where
  id : Int
  name : String
  email : String
  created_at : String
deriving DecidableEq, Repr

/-- A character of Python's regex class `\w`, read over ASCII:
a letter, a digit or an underscore. -/
def isWordChar (c : Char) : Bool := c.isAlphanum || c == '_'

/-- A character of the regex class `[\w\.-]`. -/
def isLocalChar (c : Char) : Bool := isWordChar c || c == '.' || c == '-'

/-- The part of `VALID_EMAIL_REGEX` after the `@`: `[\w\.-]+\.\w+$`.
Because `\w` has no dot, a match must split at the last dot. -/
def domainMatch (b : List Char) : Bool :=
  let rb := b.reverse
  let y := rb.takeWhile (fun c => c ≠ '.')
  match rb.drop y.length with
  | '.' :: x => !y.isEmpty && y.all isWordChar && !x.isEmpty && x.all isLocalChar
  | _ => false

/-- `re.match(VALID_EMAIL_REGEX, email)` with
`VALID_EMAIL_REGEX = r"^[\w\.-]+@[\w\.-]+\.\w+$"`: since `@` is in no
class, the string must hold exactly one `@`; `\w` is read over ASCII and
`$` is read as end-of-string (re's allowance of one trailing newline is
not modelled). -/
def emailMatch (s : List Char) : Bool :=
  let a := s.takeWhile (fun c => c ≠ '@')
  match s.drop a.length with
  | '@' :: b => !a.isEmpty && a.all isLocalChar && !b.contains '@' && domainMatch b
  | _ => false

/-- `max((u["id"] for u in user_list), default=0)`. -/
def maxUserId (user_list : List User) : Int :=
  user_list.foldl (fun m u => max m u.id) 0

/-- `create_user` of `user_manager.py` (lines 36-59). The second component
is the store after the call (unchanged on every failure, since the code
raises before appending). -/
def create_user (name : String) (email : String) (now : String)
    (user_list : List User) : Except Err User × List User :=
  let name := pyStrip name
  let email := pyLower (pyStrip email)
  if name = "" then (.error (.validationError "Name is required"), user_list)
  else if name.length > 50 then
    (.error (.validationError "Name cannot exceed 50 characters"), user_list)
  else if !emailMatch email.data then
    (.error (.validationError "Invalid email format"), user_list)
  else if user_list.any (fun u => pyLower u.email == email) then
    (.error (.validationError "Email already in use"), user_list)
  else
    let new_user : User :=
      { id := maxUserId user_list + 1, name := name, email := email,
        created_at := now }
    (.ok new_user, user_list ++ [new_user])

/-- `list_users` of `user_manager.py` (lines 63-84): stable sort by
lower-cased name, then the same pagination as `get_tasks`. -/
structure UsersPage where
  users : List User
  page : Int
  page_size : Int
  total_users : Nat
  total_pages : Nat
deriving DecidableEq, Repr

/-- `list_users(page=1, page_size=20)` of `user_manager.py` (lines 63-84). -/
def list_users (page : Int) (page_size : Int) (user_list : List User) :
    Except Err UsersPage :=
  if page < 1 ∨ page_size < 1 then
    .error (.validationError "Invalid pagination parameters")
  else
    let sorted_users :=
      pySort (fun a b => pyStrLe (pyLower a.name) (pyLower b.name)) user_list
    let total_users := sorted_users.length
    let ps := page_size.toNat
    let total_pages := (total_users + ps - 1) / ps
    let paginated_users :=
      if page > (total_pages : Int) ∧ total_users ≠ 0 then []
      else (sorted_users.drop ((page - 1) * page_size).toNat).take ps
    .ok ⟨paginated_users, page, page_size, total_users, total_pages⟩

/-- `get_user_by_id` of `user_manager.py` (lines 88-97): the `int(...)`
parse cannot fail on an integer argument, so only the linear lookup
remains. -/
def get_user_by_id (user_id : Int) (user_list : List User) : Except Err User :=
  match user_list.find? (fun u => u.id == user_id) with
  | some u => .ok u
  | none => .error (.notFoundError "User not found")

/-- Modelled from the spec: `task_manager.assign_task` is called by
`app.py` (line 256) but no function of that name is in the repository's
source files; spec §4.1 `assign(id, userId|None)` specifies it: looks up
the task via getById (NotFoundError if the task is missing); when userId
is not None it must resolve to an existing user (NotFoundError if not);
sets `assigned_user_id` to userId or None; persists; returns the record. -/
def assign_task (task_id : Int) (user_id : Option Int) (task_list : List Task)
    (user_list : List User) : Except Err Task × List Task :=
  match get_task_by_id task_id task_list with
  | .error e => (.error e, task_list)
  | .ok _ =>
    match user_id with
    | some uid =>
      match get_user_by_id uid user_list with
      | .error e => (.error e, task_list)
      | .ok _ =>
        let l1 := updateFirst (fun t => t.id == task_id)
                    (fun t => { t with assigned_user_id := some uid }) task_list
        match get_task_by_id task_id l1 with
        | .ok t => (.ok t, l1)
        | .error e => (.error e, l1)
    | none =>
      let l1 := updateFirst (fun t => t.id == task_id)
                  (fun t => { t with assigned_user_id := none }) task_list
      match get_task_by_id task_id l1 with
      | .ok t => (.ok t, l1)
      | .error e => (.error e, l1)

/-- `status_order` of `app.py` (line 119), with the `.get(..., 99)`
default. -/
def status_order (s : String) : Nat :=
  if s == "TODO" then 0 else if s == "ONGOING" then 1
  else if s == "DONE" then 2 else 99

/-- The `tasks.sort(key=..., reverse=not ascending)` step of
`list_tasks` in `app.py` (lines 121-124): a stable sort on the chosen
key, reversed comparisons when descending. -/
def sortTasks (sort_by : String) (ascending : Bool) (ts : List Task) :
    List Task :=
  if sort_by == "status" then
    pySort (fun a b =>
      if ascending then status_order a.status ≤ status_order b.status
      else status_order b.status ≤ status_order a.status) ts
  else if sort_by == "title" then
    pySort (fun a b =>
      if ascending then pyStrLe a.title b.title
      else pyStrLe b.title a.title) ts
  else
    pySort (fun a b =>
      if ascending then pyStrLe a.created_at b.created_at
      else pyStrLe b.created_at a.created_at) ts

/-- The collection `list_tasks` of `app.py` builds before its own
pagination (lines 113-124): the first page of `get_tasks()` **with its
default `page_size=20`**, then the status filter, then the sort. -/
def list_tasks_pre_pagination (filter_status : Option String)
    (sort_by : String) (ascending : Bool) (task_list : List Task) :
    List Task :=
  let tasks :=
    match get_tasks 1 20 task_list with
    | .ok r => r.tasks
    | .error _ => []
  let tasks :=
    match filter_status with
    | some s => tasks.filter (fun t => t.status == s)
    | none => tasks
  sortTasks sort_by ascending tasks

/-! ### Claims C4 and C5: the pagination contract -/

/-- The `ok` branch of `get_tasks`, spelled out. -/
lemma get_tasks_ok {page page_size : Int} (hp' : ¬ page < 1)
    (hs' : ¬ page_size < 1) (l : List Task) :
    get_tasks page page_size l =
      .ok ⟨(if page > (((l.length + page_size.toNat - 1) / page_size.toNat : Nat) : Int)
              ∧ l.length ≠ 0 then []
            else (l.drop ((page - 1) * page_size).toNat).take page_size.toNat),
        page, page_size, l.length,
        (l.length + page_size.toNat - 1) / page_size.toNat⟩ := by
  unfold get_tasks
  rw [if_neg hp', if_neg hs']

/-- The `ok` branch of `list_users`, spelled out. -/
lemma list_users_ok {page page_size : Int} (h' : ¬ (page < 1 ∨ page_size < 1))
    (us : List User) :
    list_users page page_size us =
      .ok ⟨(if page > ((((pySort (fun a b => pyStrLe (pyLower a.name) (pyLower b.name)) us).length
                + page_size.toNat - 1) / page_size.toNat : Nat) : Int)
              ∧ (pySort (fun a b => pyStrLe (pyLower a.name) (pyLower b.name)) us).length ≠ 0 then []
            else ((pySort (fun a b => pyStrLe (pyLower a.name) (pyLower b.name)) us).drop
                    ((page - 1) * page_size).toNat).take page_size.toNat),
        page, page_size,
        (pySort (fun a b => pyStrLe (pyLower a.name) (pyLower b.name)) us).length,
        ((pySort (fun a b => pyStrLe (pyLower a.name) (pyLower b.name)) us).length
          + page_size.toNat - 1) / page_size.toNat⟩ := by
  unfold list_users
  rw [if_neg h']

/-- C4: For every item sequence and all `page >= 1` and `page_size >= 1`,
pagination returns page items with `len(page_items) <= page_size` and
`total_pages = ceil(total_items / page_size)` (`0` when `total_items = 0`);
for `page < 1` or `page_size < 1` it fails with a ValidationError. Both
paginators (`get_tasks` and `list_users`) satisfy the contract. -/
theorem C4_paginate_contract (l : List Task) (us : List User)
    (page page_size : Int) :
    ((page < 1 ∨ page_size < 1) →
      (∃ m, get_tasks page page_size l = .error (.validationError m)) ∧
      (∃ m, list_users page page_size us = .error (.validationError m)))
  ∧ (1 ≤ page → 1 ≤ page_size →
      (∃ r, get_tasks page page_size l = .ok r ∧
        r.tasks.length ≤ page_size.toNat ∧
        r.total_tasks = l.length ∧
        r.total_pages = l.length ⌈/⌉ page_size.toNat ∧
        (l.length = 0 → r.total_pages = 0)) ∧
      (∃ r, list_users page page_size us = .ok r ∧
        r.users.length ≤ page_size.toNat ∧
        r.total_users = us.length ∧
        r.total_pages = us.length ⌈/⌉ page_size.toNat ∧
        (us.length = 0 → r.total_pages = 0))) := by
  constructor
  · intro h
    by_cases hp : page < 1
    · exact ⟨⟨"Invalid page number", by simp [get_tasks, hp]⟩,
        ⟨"Invalid pagination parameters", by simp [list_users, hp]⟩⟩
    · have hs : page_size < 1 := h.resolve_left hp
      exact ⟨⟨"Invalid page size", by simp [get_tasks, hp, hs]⟩,
        ⟨"Invalid pagination parameters", by simp [list_users, hp, hs]⟩⟩
  · intro hp hs
    have hp' : ¬ page < 1 := not_lt.2 hp
    have hs' : ¬ page_size < 1 := not_lt.2 hs
    have hps : 0 < page_size.toNat := by omega
    have hlen : (pySort (fun a b => pyStrLe (pyLower a.name) (pyLower b.name)) us).length
        = us.length := length_pySort _ us
    constructor
    · refine ⟨_, get_tasks_ok hp' hs' l, ?_, rfl, ?_, ?_⟩
      · show List.length (if _ ∧ _ then _ else _) ≤ _
        split
        · simp
        · simp [List.length_take]
      · show _ = _
        rw [Nat.ceilDiv_eq_add_pred_div]
      · intro h0
        show (l.length + page_size.toNat - 1) / page_size.toNat = 0
        rw [h0, Nat.zero_add]
        exact Nat.div_eq_of_lt (Nat.sub_lt hps Nat.one_pos)
    · refine ⟨_, list_users_ok (by omega) us, ?_, ?_, ?_, ?_⟩
      · show List.length (if _ ∧ _ then _ else _) ≤ _
        split
        · simp
        · simp [List.length_take]
      · exact hlen
      · show _ = _
        rw [Nat.ceilDiv_eq_add_pred_div, hlen]
      · intro h0
        show (_ + page_size.toNat - 1) / page_size.toNat = 0
        rw [hlen, h0, Nat.zero_add]
        exact Nat.div_eq_of_lt (Nat.sub_lt hps Nat.one_pos)

/-- C5: an out-of-range page (`page > total_pages`) over a non-empty
collection yields an empty page, not an error, in both paginators. -/
theorem C5_out_of_range_page (l : List Task) (us : List User)
    (page page_size : Int) (hs : 1 ≤ page_size)
    (hl : l ≠ []) (hus : us ≠ [])
    (hpt : ((l.length ⌈/⌉ page_size.toNat : Nat) : Int) < page)
    (hpu : ((us.length ⌈/⌉ page_size.toNat : Nat) : Int) < page) :
    get_tasks page page_size l =
      .ok ⟨[], page, page_size, l.length, l.length ⌈/⌉ page_size.toNat⟩
    ∧ list_users page page_size us =
      .ok ⟨[], page, page_size, us.length, us.length ⌈/⌉ page_size.toNat⟩ := by
  simp only [Nat.ceilDiv_eq_add_pred_div] at hpt hpu ⊢
  have hp' : ¬ page < 1 := by
    have : (0 : Int) ≤ ((l.length + page_size.toNat - 1) / page_size.toNat : Nat) :=
      Int.natCast_nonneg _
    omega
  have hs' : ¬ page_size < 1 := not_lt.2 hs
  have hl0 : l.length ≠ 0 := fun h => hl (List.eq_nil_of_length_eq_zero h)
  have hus0 : us.length ≠ 0 := fun h => hus (List.eq_nil_of_length_eq_zero h)
  have hlen : (pySort (fun a b => pyStrLe (pyLower a.name) (pyLower b.name)) us).length
      = us.length := length_pySort _ us
  constructor
  · rw [get_tasks_ok hp' hs' l, if_pos ⟨hpt, hl0⟩]
  · rw [list_users_ok (by omega) us, hlen, if_pos ⟨hpu, hus0⟩]

/-- Witness for C5 at a one-task, one-user store with `page_size = 1` and
`page = 2 > total_pages = 1`. -/
theorem C5_out_of_range_page_witness :
    get_tasks 2 1 [⟨1, "A", "", "TODO", "d", none⟩] =
      .ok ⟨[], 2, 1, 1, 1⟩
    ∧ list_users 2 1 [⟨1, "Alice", "alice@example.com", "d"⟩] =
      .ok ⟨[], 2, 1, 1, 1⟩ :=
  C5_out_of_range_page [⟨1, "A", "", "TODO", "d", none⟩]
    [⟨1, "Alice", "alice@example.com", "d"⟩] 2 1 (by decide)
    (by decide) (by decide) (by decide) (by decide)

/-! ### Claim C6: add_task trims and validates -/

/-- C6: `add` trims both fields and fails with a ValidationError exactly
when the trimmed title is empty, over 100 characters, or the trimmed
description is over 500 characters; on success the stored task holds the
trimmed title and description, status `TODO`, and is appended. -/
theorem C6_add_task_validation (title description now : String)
    (l : List Task) :
    (((pyStrip title) = "" ∨ 100 < (pyStrip title).length ∨ 500 < (pyStrip description).length) →
      ∃ m, add_task title description now l = .error (.validationError m))
  ∧ ((pyStrip title) ≠ "" → (pyStrip title).length ≤ 100 → (pyStrip description).length ≤ 500 →
      ∃ t, add_task title description now l = .ok (t, l ++ [t]) ∧
        t.title = (pyStrip title) ∧ t.description = (pyStrip description) ∧
        t.status = "TODO" ∧ t.created_at = now)
  ∧ (∀ e, add_task title description now l = .error e →
      (pyStrip title) = "" ∨ 100 < (pyStrip title).length ∨ 500 < (pyStrip description).length) := by
  by_cases h1 : (pyStrip title) = ""
  · exact ⟨fun _ => ⟨"Title is required", by simp [add_task, h1]⟩,
      fun hne _ _ => absurd h1 hne, fun e _ => Or.inl h1⟩
  · by_cases h2 : 100 < (pyStrip title).length
    · exact ⟨fun _ => ⟨"Title cannot exceed 100 characters",
          by simp [add_task, h1, h2]⟩,
        fun _ hle _ => absurd h2 (not_lt.2 hle), fun e _ => Or.inr (Or.inl h2)⟩
    · by_cases h3 : 500 < (pyStrip description).length
      · exact ⟨fun _ => ⟨"Description cannot exceed 500 characters",
            by simp [add_task, h1, h2, h3]⟩,
          fun _ _ hle => absurd h3 (not_lt.2 hle),
          fun e _ => Or.inr (Or.inr h3)⟩
      · have hok : add_task title description now l =
            .ok (⟨maxId l + 1, (pyStrip title), (pyStrip description), "TODO", now, none⟩,
              l ++ [⟨maxId l + 1, (pyStrip title), (pyStrip description), "TODO", now, none⟩]) := by
          unfold add_task
          rw [if_neg h1, if_neg h2, if_neg h3]
        refine ⟨fun habs => ?_, fun _ _ _ => ⟨_, hok, rfl, rfl, rfl, rfl⟩,
          fun e he => ?_⟩
        · rcases habs with h | h | h
          · exact absurd h h1
          · exact absurd h h2
          · exact absurd h h3
        · rw [hok] at he
          cases he

/-! ### Claim C9: keyword search -/

/-- `listPref` decides the prefix relation. -/
lemma listPref_iff : ∀ (n h : List Char), listPref n h = true ↔ n <+: h
  | [], h => by simp [listPref]
  | a :: as, [] => by simp [listPref]
  | a :: as, b :: bs => by
    simp [listPref, List.cons_prefix_cons, listPref_iff as bs, And.comm]

/-- `strContains` decides the substring (infix) relation. -/
lemma strContains_iff (n : List Char) :
    ∀ (h : List Char), strContains n h = true ↔ n <:+: h
  | [] => by simp [strContains, List.isEmpty_iff]
  | c :: t => by
    rw [strContains]
    simp [listPref_iff, strContains_iff n t, List.infix_cons_iff]

/-- The empty keyword is a substring of everything. -/
lemma strContains_nil (h : List Char) : strContains [] h = true := by
  cases h <;> simp [strContains, listPref]

lemma lowerChars_empty : lowerChars "" = [] := rfl

/-- C9: `search_tasks` returns exactly the tasks whose lower-cased title or
description has the lower-cased keyword as a substring, as a sublist of the
store (so in store order), and the empty keyword returns the whole store. -/
theorem C9_search_tasks (keyword : String) (l : List Task) :
    (∀ t, t ∈ search_tasks keyword l ↔
        t ∈ l ∧ (lowerChars keyword <:+: lowerChars t.title ∨
                 lowerChars keyword <:+: lowerChars t.description))
  ∧ List.Sublist (search_tasks keyword l) l
  ∧ search_tasks "" l = l := by
  refine ⟨fun t => ?_, List.filter_sublist _, ?_⟩
  · simp [search_tasks, List.mem_filter, task_matches, strContains_iff]
  · simp [search_tasks, task_matches, lowerChars_empty, strContains_nil]

/-! ### Claim C3: id assignment -/

lemma foldl_max_le_init (l : List Task) :
    ∀ a : Int, a ≤ l.foldl (fun m t => max m t.id) a := by
  induction l with
  | nil => intro a; exact le_refl a
  | cons t ts ih => intro a; exact le_trans (le_max_left a t.id) (ih (max a t.id))

lemma mem_le_foldl_max (u : Task) (l : List Task) (hu : u ∈ l) :
    ∀ a : Int, u.id ≤ l.foldl (fun m t => max m t.id) a := by
  induction l with
  | nil => cases hu
  | cons t ts ih =>
    intro a
    rcases List.mem_cons.1 hu with rfl | hmem
    · show u.id ≤ List.foldl (fun m t => max m t.id) (max a u.id) ts
      exact le_trans (le_max_right a u.id) (foldl_max_le_init ts _)
    · show u.id ≤ List.foldl (fun m t => max m t.id) (max a t.id) ts
      exact ih hmem _

lemma mem_le_maxId (u : Task) (l : List Task) (hu : u ∈ l) : u.id ≤ maxId l :=
  mem_le_foldl_max u l hu 0

/-- C3 counterexample: from the store `[task 1, task 2]` (reachable: the
second conjunct shows `add_task` itself builds it), deleting task 2
succeeds, and the next `add_task` hands out id 2 again — an id an earlier
task held and lost through deletion is reused. -/
theorem C3_id_reuse_counterexample :
    (add_task "B" "" "d" [⟨1, "A", "", "TODO", "d", none⟩]
      = .ok (⟨2, "B", "", "TODO", "d", none⟩,
          [⟨1, "A", "", "TODO", "d", none⟩, ⟨2, "B", "", "TODO", "d", none⟩]))
  ∧ (delete_task 2 [⟨1, "A", "", "TODO", "d", none⟩, ⟨2, "B", "", "TODO", "d", none⟩]
      = (.ok (), [⟨1, "A", "", "TODO", "d", none⟩]))
  ∧ ((add_task "C" "" "d" [⟨1, "A", "", "TODO", "d", none⟩]).map (fun p => p.1.id)
      = .ok 2) := by
  refine ⟨?_, ?_, ?_⟩ <;> decide

/-- C3 amended: every successful `add_task` assigns
`max existing id + 1` (so 1 on an empty store), an id strictly greater
than every id currently in the store — so an id is never reused while a
task with an id at least as large remains; deletion gives no such
protection, and a deleted id can be handed out again (see the
counterexample). -/
theorem C3_next_id_max_plus_one (title description now : String)
    (l : List Task) (t : Task) (l' : List Task)
    (h : add_task title description now l = .ok (t, l')) :
    t.id = maxId l + 1 ∧ ∀ u ∈ l, u.id < t.id := by
  unfold add_task at h
  by_cases h1 : (pyStrip title) = ""
  · rw [if_pos h1] at h; cases h
  rw [if_neg h1] at h
  by_cases h2 : (pyStrip title).length > 100
  · rw [if_pos h2] at h; cases h
  rw [if_neg h2] at h
  by_cases h3 : (pyStrip description).length > 500
  · rw [if_pos h3] at h; cases h
  rw [if_neg h3] at h
  cases h
  exact ⟨rfl, fun u hu =>
    lt_of_le_of_lt (mem_le_maxId u l hu) (lt_add_one _)⟩

/-- Witness for the amended C3 on the empty store: the first id is 1. -/
theorem C3_next_id_witness :
    (⟨1, "A", "", "TODO", "d", none⟩ : Task).id = maxId [] + 1
    ∧ ∀ u ∈ ([] : List Task), u.id < (⟨1, "A", "", "TODO", "d", none⟩ : Task).id :=
  C3_next_id_max_plus_one "A" "" "d" [] ⟨1, "A", "", "TODO", "d", none⟩
    [⟨1, "A", "", "TODO", "d", none⟩] (by decide)

/-! ### Claim C2: GET /tasks reads the whole store? -/

/-- C2 fails on the code: with 21 tasks in the store (all status `TODO`),
task 21 is in the store and matches every status filter, yet it is absent
from the filtered-and-sorted collection `list_tasks` paginates — the
endpoint seeds the pipeline with `get_tasks()` and its default
`page_size=20`, so the store is truncated to its first 20 tasks before
filtering and sorting. -/
theorem C2_pre_pagination_truncates_at_20 :
    ((⟨21, "T", "", "TODO", "d", none⟩ : Task) ∈
        (List.range 21).map
          (fun i : Nat => (⟨Int.ofNat i + 1, "T", "", "TODO", "d", none⟩ : Task)))
  ∧ ((⟨21, "T", "", "TODO", "d", none⟩ : Task) ∉
        list_tasks_pre_pagination none "created_at" true
          ((List.range 21).map
            (fun i : Nat => (⟨Int.ofNat i + 1, "T", "", "TODO", "d", none⟩ : Task))))
  ∧ ((⟨21, "T", "", "TODO", "d", none⟩ : Task) ∉
        list_tasks_pre_pagination (some "TODO") "status" false
          ((List.range 21).map
            (fun i : Nat => (⟨Int.ofNat i + 1, "T", "", "TODO", "d", none⟩ : Task)))) := by
  refine ⟨?_, ?_, ?_⟩ <;> decide

/-! ### Claim C1: assigning a task to a user -/

/-- `List.find?` after `updateFirst` with the same predicate: the first
hit is the image of the old first hit, provided `f` preserves `p`. -/
lemma find?_updateFirst (p : Task → Bool) (f : Task → Task)
    (hp : ∀ t, p (f t) = p t) :
    ∀ l : List Task, (updateFirst p f l).find? p = (l.find? p).map f
  | [] => rfl
  | t :: ts => by
    by_cases h : p t
    · rw [updateFirst, if_pos h, List.find?_cons_of_pos _ ((hp t).trans h),
        List.find?_cons_of_pos _ h]
      rfl
    · rw [updateFirst, if_neg h,
        List.find?_cons_of_neg _ (by simpa using h),
        List.find?_cons_of_neg _ (by simpa using h),
        find?_updateFirst p f hp ts]

/-- C1: `assign_task` (modelled from spec §4.1, its code being absent from
the source files) propagates the task lookup failure untouched, fails with
`NotFoundError` when the target user id resolves to no user, and on
success returns the task with `assigned_user_id` set to the given user id
(or cleared by `None`), leaving the store unchanged on every failure. -/
theorem C1_assign_task_contract (task_id : Int) (user_id : Option Int)
    (l : List Task) (us : List User) :
    (∀ e, get_task_by_id task_id l = .error e →
        assign_task task_id user_id l us = (.error e, l))
  ∧ (∀ t uid, get_task_by_id task_id l = .ok t → user_id = some uid →
        (∀ u ∈ us, u.id ≠ uid) →
        assign_task task_id user_id l us =
          (.error (.notFoundError "User not found"), l))
  ∧ (∀ t, get_task_by_id task_id l = .ok t →
        (user_id = none ∨ ∃ uid u, user_id = some uid ∧
            get_user_by_id uid us = .ok u) →
        (assign_task task_id user_id l us).1 =
          .ok { t with assigned_user_id := user_id }) := by
  refine ⟨fun e he => ?_, fun t uid ht huid hnone => ?_, fun t ht hu => ?_⟩
  · simp only [assign_task, he]
  · have hfu : us.find? (fun u => u.id == uid) = none :=
      List.find?_eq_none.2 (fun u hu => by simpa using hnone u hu)
    simp only [assign_task, ht, huid, get_user_by_id, hfu]
  · have hid : ¬ task_id < 1 := by
      by_contra hlt
      unfold get_task_by_id at ht
      rw [if_pos hlt] at ht
      exact Except.noConfusion ht
    have hfind : l.find? (fun x => x.id == task_id) = some t := by
      unfold get_task_by_id at ht
      rw [if_neg hid] at ht
      cases hf : l.find? (fun x => x.id == task_id) with
      | some t' => rw [hf] at ht; cases ht; rfl
      | none => rw [hf] at ht; exact Except.noConfusion ht
    rcases hu with rfl | ⟨uid, u, rfl, huser⟩
    · have hthis := find?_updateFirst (fun x => x.id == task_id)
        (fun x => { x with assigned_user_id := none }) (fun x => rfl) l
      rw [hfind] at hthis
      have hgt : get_task_by_id task_id
          (updateFirst (fun x => x.id == task_id)
            (fun x => { x with assigned_user_id := none }) l)
          = .ok { t with assigned_user_id := none } := by
        unfold get_task_by_id
        rw [if_neg hid, hthis]
        rfl
      simp only [assign_task, ht, hgt]
    · have hthis := find?_updateFirst (fun x => x.id == task_id)
        (fun x => { x with assigned_user_id := some uid }) (fun x => rfl) l
      rw [hfind] at hthis
      have hgt : get_task_by_id task_id
          (updateFirst (fun x => x.id == task_id)
            (fun x => { x with assigned_user_id := some uid }) l)
          = .ok { t with assigned_user_id := some uid } := by
        unfold get_task_by_id
        rw [if_neg hid, hthis]
        rfl
      simp only [assign_task, ht, huser, hgt]

/-! ### Claim C7: update touches only title/description of its task -/

/-- The frame relation of `update_task` on the store with target id `k`:
each task keeps its `id`, `status` and `created_at`, and a task whose id
is not `k` is untouched entirely. -/
def frameEq (k : Int) (t t' : Task) : Prop :=
  t'.id = t.id ∧ t'.status = t.status ∧ t'.created_at = t.created_at ∧
  (t.id ≠ k → t' = t)

lemma frameEq_refl (k : Int) (t : Task) : frameEq k t t :=
  ⟨rfl, rfl, rfl, fun _ => rfl⟩

lemma frameEq_trans {k : Int} {a b c : Task} :
    frameEq k a b → frameEq k b c → frameEq k a c := by
  rintro ⟨h1, h2, h3, h4⟩ ⟨g1, g2, g3, g4⟩
  refine ⟨g1.trans h1, g2.trans h2, g3.trans h3, fun hne => ?_⟩
  have hb := h4 hne
  have hbid : b.id ≠ k := by rw [h1]; exact hne
  rw [g4 hbid, hb]

lemma forall₂_frameEq_refl (k : Int) (l : List Task) :
    List.Forall₂ (frameEq k) l l :=
  List.forall₂_same.2 (fun t _ => frameEq_refl k t)

lemma forall₂_frameEq_trans (k : Int) :
    ∀ {l1 l2 l3 : List Task}, List.Forall₂ (frameEq k) l1 l2 →
      List.Forall₂ (frameEq k) l2 l3 → List.Forall₂ (frameEq k) l1 l3 := by
  intro l1 l2 l3 h12
  induction h12 generalizing l3 with
  | nil => intro h23; cases h23; constructor
  | cons h t ih =>
    intro h23
    cases h23 with
    | cons h' t' => exact List.Forall₂.cons (frameEq_trans h h') (ih t')

lemma updateFirst_frameEq (k : Int) (f : Task → Task)
    (hf : ∀ t, (t.id == k) = true → frameEq k t (f t)) :
    ∀ l : List Task,
      List.Forall₂ (frameEq k) l (updateFirst (fun t => t.id == k) f l)
  | [] => List.Forall₂.nil
  | t :: ts => by
    rw [updateFirst]
    split
    · exact List.Forall₂.cons (hf t ‹_›) (forall₂_frameEq_refl k ts)
    · exact List.Forall₂.cons (frameEq_refl k t) (updateFirst_frameEq k f hf ts)

/-- C7: whatever `update_task` does (succeed, reject the id, reject the
title or the description), every task of the store keeps its `id`,
`status` and `created_at`, and every task other than the target (id
different from `task_id`) is completely unchanged. -/
theorem C7_update_task_frame (task_id : Int) (title description : Option String)
    (l : List Task) :
    List.Forall₂ (frameEq task_id) l
      (update_task task_id title description l).2 := by
  have hT : ∀ (s : String) (l' : List Task), List.Forall₂ (frameEq task_id) l'
      (updateFirst (fun t => t.id == task_id)
        (fun t => { t with title := pyStrip s }) l') :=
    fun s l' => updateFirst_frameEq task_id
      (fun t => { t with title := pyStrip s })
      (fun t ht => ⟨rfl, rfl, rfl, fun hne => absurd (by simpa using ht) hne⟩) l'
  have hD : ∀ (d : String) (l' : List Task), List.Forall₂ (frameEq task_id) l'
      (updateFirst (fun t => t.id == task_id)
        (fun t => { t with description := pyStrip d }) l') :=
    fun d l' => updateFirst_frameEq task_id
      (fun t => { t with description := pyStrip d })
      (fun t ht => ⟨rfl, rfl, rfl, fun hne => absurd (by simpa using ht) hne⟩) l'
  have hRefl := forall₂_frameEq_refl task_id l
  cases hres : get_task_by_id task_id l with
  | error e =>
    simp only [update_task, hres]
    exact hRefl
  | ok t0 =>
    rcases title with _ | s
    · rcases description with _ | d
      · simp only [update_task, hres]
        exact hRefl
      · by_cases h3 : (pyStrip d).length > 500
        · simp only [update_task, hres, if_pos h3]
          exact hRefl
        · simp only [update_task, hres, if_neg h3]
          cases hres2 : get_task_by_id task_id
              (updateFirst (fun t => t.id == task_id)
                (fun t => { t with description := pyStrip d }) l) with
          | ok t2 => simp only [hres2]; exact hD d l
          | error e2 => simp only [hres2]; exact hD d l
    · by_cases h1 : pyStrip s = ""
      · simp only [update_task, hres, if_pos h1]
        exact hRefl
      · by_cases h2 : (pyStrip s).length > 100
        · simp only [update_task, hres, if_neg h1, if_pos h2]
          exact hRefl
        · rcases description with _ | d
          · simp only [update_task, hres, if_neg h1, if_neg h2]
            cases hres2 : get_task_by_id task_id
                (updateFirst (fun t => t.id == task_id)
                  (fun t => { t with title := pyStrip s }) l) with
            | ok t2 => simp only [hres2]; exact hT s l
            | error e2 => simp only [hres2]; exact hT s l
          · by_cases h3 : (pyStrip d).length > 500
            · simp only [update_task, hres, if_neg h1, if_neg h2, if_pos h3]
              exact hT s l
            · simp only [update_task, hres, if_neg h1, if_neg h2, if_neg h3]
              cases hres2 : get_task_by_id task_id
                  (updateFirst (fun t => t.id == task_id)
                    (fun t => { t with description := pyStrip d })
                    (updateFirst (fun t => t.id == task_id)
                      (fun t => { t with title := pyStrip s }) l)) with
              | ok t2 =>
                simp only [hres2]
                exact forall₂_frameEq_trans task_id (hT s l) (hD d _)
              | error e2 =>
                simp only [hres2]
                exact forall₂_frameEq_trans task_id (hT s l) (hD d _)

/-! ### Claim C10: update is not atomic on validation failure -/

/-- C10: on an existing task, `update_task` with a valid new title and an
over-long description raises the description `ValidationError` — yet the
store already holds the new title: the title assignment happened before
the description check, and when the new title differs the store has been
modified despite the error. -/
theorem C10_update_not_atomic (l : List Task) (task_id : Int)
    (title description : String) (t : Task)
    (hfound : get_task_by_id task_id l = .ok t)
    (ht1 : pyStrip title ≠ "") (ht2 : (pyStrip title).length ≤ 100)
    (hd : 500 < (pyStrip description).length) :
    (update_task task_id (some title) (some description) l).1
        = .error (.validationError "Description cannot exceed 500 characters")
    ∧ (∃ t', get_task_by_id task_id
          (update_task task_id (some title) (some description) l).2 = .ok t'
        ∧ t'.title = pyStrip title)
    ∧ (t.title ≠ pyStrip title →
        (update_task task_id (some title) (some description) l).2 ≠ l) := by
  have h2' : ¬ (pyStrip title).length > 100 := not_lt.2 ht2
  have hupd : update_task task_id (some title) (some description) l =
      (.error (.validationError "Description cannot exceed 500 characters"),
        updateFirst (fun x => x.id == task_id)
          (fun x => { x with title := pyStrip title }) l) := by
    simp only [update_task, hfound, if_neg ht1, if_neg h2', if_pos hd]
  have hid : ¬ task_id < 1 := by
    by_contra hlt
    unfold get_task_by_id at hfound
    rw [if_pos hlt] at hfound
    exact Except.noConfusion hfound
  have hfind : l.find? (fun x => x.id == task_id) = some t := by
    unfold get_task_by_id at hfound
    rw [if_neg hid] at hfound
    cases hf : l.find? (fun x => x.id == task_id) with
    | some t' => rw [hf] at hfound; cases hfound; rfl
    | none => rw [hf] at hfound; exact Except.noConfusion hfound
  have hthis := find?_updateFirst (fun x => x.id == task_id)
    (fun x => { x with title := pyStrip title }) (fun x => rfl) l
  rw [hfind] at hthis
  have hgt : get_task_by_id task_id
      (updateFirst (fun x => x.id == task_id)
        (fun x => { x with title := pyStrip title }) l)
      = .ok { t with title := pyStrip title } := by
    unfold get_task_by_id
    rw [if_neg hid, hthis]
    rfl
  refine ⟨by rw [hupd], ⟨{ t with title := pyStrip title },
    by rw [hupd]; exact hgt, rfl⟩, fun hne hstate => ?_⟩
  rw [hupd] at hstate
  have hstate' : updateFirst (fun x => x.id == task_id)
      (fun x => { x with title := pyStrip title }) l = l := hstate
  rw [hstate'] at hgt
  have heq : Except.ok (ε := Err) t = .ok { t with title := pyStrip title } :=
    hfound.symm.trans hgt
  have ht : t = { t with title := pyStrip title } := by
    injection heq
  exact hne (congrArg Task.title ht)

set_option maxRecDepth 8192 in
/-- Witness for C10: one task titled `"Old"`, update to title `"New"`
with a 501-character description: the error is raised and the stored
title is already `"New"`, the store changed. -/
theorem C10_update_not_atomic_witness :
    (update_task 1 (some "New") (some (String.mk (List.replicate 501 'x')))
        [⟨1, "Old", "", "TODO", "d", none⟩]).1
      = .error (.validationError "Description cannot exceed 500 characters")
    ∧ (∃ t', get_task_by_id 1
          (update_task 1 (some "New") (some (String.mk (List.replicate 501 'x')))
            [⟨1, "Old", "", "TODO", "d", none⟩]).2 = .ok t'
        ∧ t'.title = pyStrip "New")
    ∧ ((⟨1, "Old", "", "TODO", "d", none⟩ : Task).title ≠ pyStrip "New" →
        (update_task 1 (some "New") (some (String.mk (List.replicate 501 'x')))
          [⟨1, "Old", "", "TODO", "d", none⟩]).2
          ≠ [⟨1, "Old", "", "TODO", "d", none⟩]) :=
  C10_update_not_atomic [⟨1, "Old", "", "TODO", "d", none⟩] 1 "New"
    (String.mk (List.replicate 501 'x')) ⟨1, "Old", "", "TODO", "d", none⟩
    (by decide) (by decide) (by decide) (by decide)

/-! ### Claim C8: no two users share a case-insensitive email -/

lemma toNat_ofNat_valid {n : Nat} (h : n < 0xd800) : (Char.ofNat n).toNat = n := by
  unfold Char.ofNat
  rw [dif_pos (Or.inl h)]
  rfl

lemma toLower_eq (c : Char) :
    c.toLower = if c.toNat ≥ 65 ∧ c.toNat ≤ 90 then Char.ofNat (c.toNat + 32)
                else c := rfl

/-- Lowering a character twice is lowering it once. -/
lemma toLower_idem (c : Char) : c.toLower.toLower = c.toLower := by
  rw [toLower_eq c]
  by_cases h : c.toNat ≥ 65 ∧ c.toNat ≤ 90
  · rw [if_pos h, toLower_eq]
    have h2 : (Char.ofNat (c.toNat + 32)).toNat = c.toNat + 32 :=
      toNat_ofNat_valid (by omega)
    rw [if_neg (by rw [h2]; omega)]
  · rw [if_neg h, toLower_eq, if_neg h]

/-- Lowering a string twice is lowering it once. -/
lemma pyLower_idem (s : String) : pyLower (pyLower s) = pyLower s := by
  unfold pyLower
  apply congrArg String.mk
  show (s.data.map Char.toLower).map Char.toLower = s.data.map Char.toLower
  rw [List.map_map]
  exact List.map_congr_left (fun c _ => toLower_idem c)

/-- The user stores reachable from the empty store through `create_user`
(the only mutation `user_manager.py` has). -/
inductive ReachableUsers : List User → Prop where
  | nil : ReachableUsers []
  | step (name email now : String) (us us' : List User) (u : User) :
      ReachableUsers us →
      create_user name email now us = (.ok u, us') →
      ReachableUsers us'

/-- Every reachable user store has pairwise distinct lower-cased emails,
and every stored email is already lower-cased and matches the email
pattern. -/
lemma reachable_users_invariant (us : List User) (h : ReachableUsers us) :
    us.Pairwise (fun u v => pyLower u.email ≠ pyLower v.email)
    ∧ ∀ u ∈ us, pyLower u.email = u.email ∧ emailMatch u.email.data = true := by
  induction h with
  | nil => exact ⟨List.Pairwise.nil, by simp⟩
  | step name email now us us' u hr hcreate ih =>
    simp only [create_user] at hcreate
    split_ifs at hcreate with h1 h2 h3 h4
    · exact absurd (congrArg Prod.fst hcreate) (by simp)
    · exact absurd (congrArg Prod.fst hcreate) (by simp)
    · exact absurd (congrArg Prod.fst hcreate) (by simp)
    · exact absurd (congrArg Prod.fst hcreate) (by simp)
    · have hfst := congrArg Prod.fst hcreate
      have hsnd := congrArg Prod.snd hcreate
      simp only at hfst hsnd
      have hu : u = ⟨maxUserId us + 1, pyStrip name, pyLower (pyStrip email), now⟩ := by
        injection hfst with h5
        exact h5.symm
      have hmem : ∀ v ∈ us, pyLower v.email ≠ pyLower (pyStrip email) := by
        intro v hv hvne
        exact h4 (List.any_eq_true.2 ⟨v, hv, by simp [hvne]⟩)
      have hmatch : emailMatch (pyLower (pyStrip email)).data = true := by
        rcases hm : emailMatch (pyLower (pyStrip email)).data with _ | _
        · exact absurd (by rw [hm]; rfl) h3
        · rfl
      subst hu
      rw [← hsnd]
      constructor
      · rw [List.pairwise_append]
        refine ⟨ih.1, List.pairwise_singleton _ _, fun a ha b hb => ?_⟩
        rw [List.mem_singleton] at hb
        subst hb
        show pyLower a.email ≠ pyLower (pyLower (pyStrip email))
        rw [pyLower_idem]
        exact hmem a ha
      · intro v hv
        rcases List.mem_append.1 hv with hv | hv
        · exact ih.2 v hv
        · rw [List.mem_singleton] at hv
          subst hv
          exact ⟨pyLower_idem _, hmatch⟩

/-- C8: in every store reachable through `create_user`, no two users share
a case-insensitive email, and creating a user whose trimmed, lower-cased
email collides case-insensitively with a stored email (the name being
otherwise valid) fails with the duplicate-email `ValidationError` and
leaves the store unchanged. -/
theorem C8_email_unique :
    (∀ us, ReachableUsers us →
        us.Pairwise (fun u v => pyLower u.email ≠ pyLower v.email))
  ∧ (∀ name email now us u, ReachableUsers us → u ∈ us →
      pyLower (pyStrip email) = pyLower u.email →
      pyStrip name ≠ "" → (pyStrip name).length ≤ 50 →
      create_user name email now us =
        (.error (.validationError "Email already in use"), us)) := by
  constructor
  · exact fun us h => (reachable_users_invariant us h).1
  · intro name email now us u hr hu heq hn1 hn2
    obtain ⟨hlow, hmatch⟩ := (reachable_users_invariant us hr).2 u hu
    have hm2 : emailMatch (pyLower (pyStrip email)).data = true := by
      rw [heq, hlow]
      exact hmatch
    have hany : us.any (fun v => pyLower v.email == pyLower (pyStrip email)) = true :=
      List.any_eq_true.2 ⟨u, hu, by rw [heq]; exact beq_self_eq_true _⟩
    simp only [create_user, if_neg hn1, if_neg (not_lt.2 hn2),
      if_neg (show ¬ (!emailMatch (pyLower (pyStrip email)).data) = true by
        rw [hm2]; simp), if_pos hany]

end TaskMgmt
